import Mathlib

set_option maxRecDepth 100000

/-!
Verification development for the freemail message decoding engine.

Strings are modelled as `List Char` (`Str`).  The envelope builder, the
ingestion pipeline and the read-path fallback chains are translated from the
repository sources (`handleEmailReceive`, `handleEmailsApi`,
`showEmailDetail`).  The parser, HTML stripper, address normalizer and
verification-code extractor live in repository files that are not part of
the provided sources; those are modelled from the specification and marked
as such in their doc comments.
-/

namespace Freemail

/-- Wire strings are modelled as lists of characters. -/
abbrev Str := List Char

/-- Convert a Lean string literal into the `Str` model. -/
def str (s : String) : Str := s.data

/-- The CRLF line terminator. -/
def crlf : Str := ['\r', '\n']

/-- `Array.join(sep)` over CRLF: concatenate segments with CRLF in between.
Mirrors the JavaScript `[...].join('\r\n')` used by `handleEmailReceive`. -/
def joinCRLF : List Str → Str
  | [] => []
  | [x] => x
  | x :: y :: rest => x ++ crlf ++ joinCRLF (y :: rest)

/--
Envelope builder, translated from `handleEmailReceive`
(src/unnamed/part_000 lines 31–70).  `sender` and `mailbox` are the
already-normalized addresses, `dateStr` the RFC-1123 timestamp and
`boundary` the generated boundary token; time and randomness are passed in
as parameters since the engine only reads them.
In JavaScript `text || ''` is `text` itself for every string, so the
text-part body is literally `text`.
-/
def buildEnvelope (sender mailbox subject text html dateStr boundary : Str) : Str :=
  if html ≠ [] then
    joinCRLF
      [ str "From: <" ++ sender ++ str ">"
      , str "To: <" ++ mailbox ++ str ">"
      , str "Subject: " ++ subject
      , str "Date: " ++ dateStr
      , str "MIME-Version: 1.0"
      , str "Content-Type: multipart/alternative; boundary=\"" ++ boundary ++ str "\""
      , []
      , str "--" ++ boundary
      , str "Content-Type: text/plain; charset=\"utf-8\""
      , str "Content-Transfer-Encoding: 8bit"
      , []
      , text
      , str "--" ++ boundary
      , str "Content-Type: text/html; charset=\"utf-8\""
      , str "Content-Transfer-Encoding: 8bit"
      , []
      , html
      , str "--" ++ boundary ++ str "--"
      , [] ]
  else
    joinCRLF
      [ str "From: <" ++ sender ++ str ">"
      , str "To: <" ++ mailbox ++ str ">"
      , str "Subject: " ++ subject
      , str "Date: " ++ dateStr
      , str "MIME-Version: 1.0"
      , str "Content-Type: text/plain; charset=\"utf-8\""
      , str "Content-Transfer-Encoding: 8bit"
      , []
      , text
      , [] ]

/-- Scanner for CRLF line discipline.  The flag records whether the previous
character was a `'\r'` still waiting for its `'\n'`.  `crlfOkFrom false s`
holds when every `'\n'` in `s` is immediately preceded by `'\r'` and every
`'\r'` is immediately followed by `'\n'`. -/
def crlfOkFrom : Bool → Str → Bool
  | pendingCR, [] => !pendingCR
  | pendingCR, c :: rest =>
    if c = '\n' then pendingCR && crlfOkFrom false rest
    else if c = '\r' then !pendingCR && crlfOkFrom true rest
    else !pendingCR && crlfOkFrom false rest

/-- Every newline in `s` is a CRLF pair. -/
def crlfOk (s : Str) : Bool := crlfOkFrom false s

/-- `s` ends with a CRLF terminator. -/
def endsCRLF (s : Str) : Prop := s.reverse.take 2 = ['\n', '\r']

instance (s : Str) : Decidable (endsCRLF s) := by unfold endsCRLF; infer_instance

theorem crlfOkFrom_append (a : Str) : ∀ (st : Bool) (b : Str),
    crlfOkFrom st a = true → crlfOk b = true → crlfOkFrom st (a ++ b) = true := by
  induction a with
  | nil =>
    intro st b ha hb
    simp [crlfOkFrom] at ha
    simpa [ha] using hb
  | cons c rest ih =>
    intro st b ha hb
    by_cases hn : c = '\n'
    · simp [crlfOkFrom, hn] at ha ⊢
      exact ⟨ha.1, ih false b ha.2 hb⟩
    · by_cases hr : c = '\r'
      · simp [crlfOkFrom, hn, hr] at ha ⊢
        exact ⟨ha.1, ih true b ha.2 hb⟩
      · simp [crlfOkFrom, hn, hr] at ha ⊢
        exact ⟨ha.1, ih false b ha.2 hb⟩

theorem crlfOk_append {a b : Str} (ha : crlfOk a = true) (hb : crlfOk b = true) :
    crlfOk (a ++ b) = true :=
  crlfOkFrom_append a false b ha hb

theorem endsCRLF_append (a : Str) : endsCRLF (a ++ crlf) := by
  simp [endsCRLF, crlf, List.reverse_append]

/-- Boolean prefix test on character lists. -/
def lpfx : Str → Str → Bool
  | [], _ => true
  | _ :: _, [] => false
  | a :: as, b :: bs => a == b && lpfx as bs

/-- ASCII-lowercase a string. -/
def lower (s : Str) : Str := s.map Char.toLower

/-- JavaScript `\s` whitespace class (the characters relevant to this
code base: space, tab, LF, CR, vertical tab, form feed, NBSP). -/
def isWS (c : Char) : Bool :=
  c == ' ' || c == '\t' || c == '\n' || c == '\r' || c == '\x0b' ||
    c == '\x0c' || c == ' '

/-- JavaScript `String.prototype.trim`: strip leading and trailing
whitespace. -/
def trimWS (s : Str) : Str :=
  ((s.dropWhile isWS).reverse.dropWhile isWS).reverse

/-- Scanner for `replace(/\s+/g, ' ')`; the flag records whether we are
inside a whitespace run that has already emitted its single space. -/
def collapseFrom : Bool → Str → Str
  | _, [] => []
  | inRun, c :: rest =>
    if isWS c then
      if inRun then collapseFrom true rest else ' ' :: collapseFrom true rest
    else c :: collapseFrom false rest

/-- JavaScript `replace(/\s+/g, ' ')`: collapse every whitespace run to a
single space. -/
def collapseWS (s : Str) : Str := collapseFrom false s

/-- JavaScript `s1 || s2` on strings: the empty string is falsy. -/
def jsOr (a b : Str) : Str := if a ≠ [] then a else b

/-- Drop `<...>` tag spans; the flag records being inside a tag. -/
def removeTags : Bool → Str → Str
  | _, [] => []
  | true, c :: rest => if c = '>' then removeTags false rest else removeTags true rest
  | false, c :: rest => if c = '<' then removeTags true rest else c :: removeTags false rest

/-- Decode the common HTML entity set
`&amp; &lt; &gt; &quot; &#39; &nbsp;`. -/
def decodeEntities : Str → Str
  | [] => []
  | c :: rest =>
    if c = '&' then
      if rest.take 4 = str "amp;" then '&' :: decodeEntities (rest.drop 4)
      else if rest.take 3 = str "lt;" then '<' :: decodeEntities (rest.drop 3)
      else if rest.take 3 = str "gt;" then '>' :: decodeEntities (rest.drop 3)
      else if rest.take 5 = str "quot;" then '"' :: decodeEntities (rest.drop 5)
      else if rest.take 4 = str "#39;" then '\'' :: decodeEntities (rest.drop 4)
      else if rest.take 5 = str "nbsp;" then ' ' :: decodeEntities (rest.drop 5)
      else '&' :: decodeEntities rest
    else c :: decodeEntities rest
termination_by s => s.length
decreasing_by all_goals (simp [List.length_drop]; try omega)

/-- Modelled from the spec: `stripHtml` of `email/parser.js` is not among
the provided sources.  Per §4.4 it removes tags, decodes the common entity
set, collapses whitespace runs to single spaces and trims. -/
def stripHtml (h : Str) : Str :=
  trimWS (collapseWS (decodeEntities (removeTags false h)))

/-- Decoded output of the message parser (spec §3, `ParsedBody`). -/
structure ParsedBody where
  text : Str
  html : Str
deriving DecidableEq

/-- Modelled from the spec: split a raw message into header block and body
at the first blank line — CRLF CRLF, tolerating bare LF LF (§4.3 step 1).
`parseEmailBody` of `email/parser.js` is not among the provided sources. -/
def splitHB : Str → Str × Str
  | [] => ([], [])
  | c :: rest =>
    if c = '\r' ∧ rest.take 3 = ['\n', '\r', '\n'] then ([], rest.drop 3)
    else if c = '\n' ∧ rest.take 1 = ['\n'] then ([], rest.drop 1)
    else (c :: (splitHB rest).1, (splitHB rest).2)

/-- Split a header block into its CRLF-separated lines. -/
def splitCRLF : Str → List Str
  | [] => [[]]
  | '\r' :: '\n' :: rest => [] :: splitCRLF rest
  | c :: rest =>
    match splitCRLF rest with
    | [] => [[c]]
    | l :: ls => (c :: l) :: ls

/-- Modelled from the spec: case-insensitive header lookup (§4.3 step 2)
over the CRLF-separated lines of a header block; returns the raw value
after `name:`. -/
def headerValue (name : Str) (headerBlock : Str) : Option Str :=
  match (splitCRLF headerBlock).find? (fun l => lpfx (name ++ [':']) (lower l)) with
  | some l => some (l.drop (name.length + 1))
  | none => none

/-- Boolean substring test. -/
def containsSub (n : Str) : Str → Bool
  | [] => lpfx n []
  | c :: rest => lpfx n (c :: rest) || containsSub n rest

/-- Suffix after the first case-insensitive occurrence of `n` (used to
locate the `boundary=` parameter, case preserved in the value). -/
def afterSubCI (n : Str) : Str → Option Str
  | [] => if n = [] then some [] else none
  | c :: rest =>
    if lpfx n (lower (c :: rest)) then some ((c :: rest).drop n.length)
    else afterSubCI n rest

/-- Strip one trailing CRLF, the line-terminator that the envelope format
appends after a body; used as the line-ending normalization of §8. -/
def chompCRLF (s : Str) : Str :=
  if s.reverse.take 2 = ['\n', '\r'] then (s.reverse.drop 2).reverse else s

/-- Hexadecimal digit value. -/
def hexVal (c : Char) : Option Nat :=
  if '0' ≤ c ∧ c ≤ '9' then some (c.toNat - 48)
  else if 'A' ≤ c ∧ c ≤ 'F' then some (c.toNat - 55)
  else if 'a' ≤ c ∧ c ≤ 'f' then some (c.toNat - 87)
  else none

/-- Decode the two hex digits of a quoted-printable escape, if valid. -/
def hexPair : Str → Option Char
  | a :: b :: _ =>
    match hexVal a, hexVal b with
    | some x, some y => some (Char.ofNat (16 * x + y))
    | _, _ => none
  | _ => none

/-- Modelled from the spec: quoted-printable decoding (§4.3 step 3) —
`=XX` hex escapes and `=` CRLF soft line breaks; malformed escapes pass
through. -/
def qpDecode : Str → Str
  | [] => []
  | c :: rest =>
    if c = '=' then
      if rest.take 2 = ['\r', '\n'] then qpDecode (rest.drop 2)
      else
        match hexPair rest with
        | some ch => ch :: qpDecode (rest.drop 2)
        | none => c :: qpDecode rest
    else c :: qpDecode rest
termination_by s => s.length
decreasing_by all_goals (simp [List.length_drop]; try omega)

/-- Base64 alphabet value. -/
def b64Val (c : Char) : Option Nat :=
  if 'A' ≤ c ∧ c ≤ 'Z' then some (c.toNat - 65)
  else if 'a' ≤ c ∧ c ≤ 'z' then some (c.toNat - 71)
  else if '0' ≤ c ∧ c ≤ '9' then some (c.toNat + 4)
  else if c = '+' then some 62
  else if c = '/' then some 63
  else none

/-- Reassemble base64 sextets into bytes (decoded bytes are represented as
characters, matching the best-effort UTF-8 assumption of §4.3 step 5). -/
def b64Group : List Nat → Str
  | a :: b :: c :: d :: rest =>
    Char.ofNat (a * 4 + b / 16) :: Char.ofNat (b % 16 * 16 + c / 4) ::
      Char.ofNat (c % 4 * 64 + d) :: b64Group rest
  | [a, b] => [Char.ofNat (a * 4 + b / 16)]
  | [a, b, c] => [Char.ofNat (a * 4 + b / 16), Char.ofNat (b % 16 * 16 + c / 4)]
  | _ => []

/-- Modelled from the spec: base64 decoding, ignoring padding, whitespace
and characters outside the alphabet. -/
def base64Decode (s : Str) : Str := b64Group (s.filterMap b64Val)

/-- Modelled from the spec: decode a body per its transfer encoding —
base64 and quoted-printable decode, everything else passes through
(§4.3 steps 3–4). -/
def decodeBody (enc body : Str) : Str :=
  if enc = str "base64" then base64Decode body
  else if enc = str "quoted-printable" then qpDecode body
  else body

/-- Split on every occurrence of the (non-empty) delimiter `d :: ds`. -/
def splitSubGo (d : Char) (ds : Str) : Str → List Str
  | [] => [[]]
  | c :: rest =>
    if lpfx (d :: ds) (c :: rest) then [] :: splitSubGo d ds (rest.drop ds.length)
    else
      match splitSubGo d ds rest with
      | [] => [[c]]
      | l :: ls => (c :: l) :: ls
termination_by s => s.length
decreasing_by all_goals (simp [List.length_drop]; try omega)

/-- Modelled from the spec: parse one part of a multipart body — strip the
delimiter line's trailing CRLF, split the part's own headers, decode its
body per its transfer encoding and classify it as html or text by its
part-level `Content-Type` (§4.3 step 3). -/
def parsePart (part : Str) : Bool × Str :=
  let core := if part.take 2 = crlf then part.drop 2 else part
  let hb := splitHB core
  let pct := lower (trimWS ((headerValue (str "content-type") hb.1).getD []))
  let penc := lower (trimWS ((headerValue (str "content-transfer-encoding") hb.1).getD []))
  let decoded := decodeBody penc (chompCRLF hb.2)
  (containsSub (str "text/html") pct, decoded)

/-- Modelled from the spec: the `boundary` parameter of a `Content-Type`
value, quoted or bare (§4.3 step 2). -/
def boundaryOf (ct : Str) : Option Str :=
  match afterSubCI (str "boundary=") ct with
  | none => none
  | some v =>
    let b :=
      if v.take 1 = ['"'] then (v.drop 1).takeWhile (fun c => c != '"')
      else v.takeWhile (fun c => !(c == ';' || isWS c))
    if b = [] then none else some b

/-- Modelled from the spec: `parseEmailBody` of `email/parser.js` is not
among the provided sources.  Per §4.3: split headers from body at the
first blank line, read `Content-Type` case-insensitively; if multipart,
split the body on `--boundary`, discard preamble and the `--boundary--`
terminator, parse each part and keep the first text part and the first
html part (the deterministic rule §4.3 recommends); otherwise decode the
single body per its transfer encoding and classify by the top-level
`Content-Type`, defaulting to `text/plain` when absent.  Total: on any
input it returns a (possibly empty) `ParsedBody`. -/
def parseBody (raw : Str) : ParsedBody :=
  let hb := splitHB raw
  let ct := (headerValue (str "content-type") hb.1).getD []
  let ctL := lower (trimWS ct)
  if containsSub (str "multipart/") ctL then
    match boundaryOf ct with
    | none => ⟨[], []⟩
    | some b =>
      let segs := splitSubGo '-' ('-' :: b) hb.2
      let parts := (segs.drop 1).filter (fun p => !lpfx (str "--") p)
      let parsed := parts.map parsePart
      let textPart := (parsed.find? (fun q => !q.1)).map (fun q => q.2)
      let htmlPart := (parsed.find? (fun q => q.1)).map (fun q => q.2)
      ⟨textPart.getD [], htmlPart.getD []⟩
  else
    let enc := lower (trimWS ((headerValue (str "content-transfer-encoding") hb.1).getD []))
    let decoded := decodeBody enc hb.2
    if containsSub (str "text/html") ctL then ⟨[], decoded⟩ else ⟨decoded, []⟩

/-- `s` contains neither CR nor LF. -/
def noNL : Str → Bool
  | [] => true
  | c :: rest => !(c == '\r' || c == '\n') && noNL rest

theorem noNL_append {a b : Str} (ha : noNL a = true) (hb : noNL b = true) :
    noNL (a ++ b) = true := by
  induction a with
  | nil => simpa using hb
  | cons c rest ih =>
    simp [noNL] at ha ⊢
    exact ⟨ha.1, ih ha.2⟩

theorem splitHB_cons_other (c : Char) (rest : Str)
    (h1 : ¬(c = '\r' ∧ rest.take 3 = ['\n', '\r', '\n']))
    (h2 : ¬(c = '\n' ∧ rest.take 1 = ['\n'])) :
    splitHB (c :: rest) = (c :: (splitHB rest).1, (splitHB rest).2) := by
  simp only [splitHB]
  rw [if_neg h1, if_neg h2]

theorem splitHB_line (l : Str) (b : Str) (hl : noNL l = true) :
    splitHB (l ++ ('\r' :: '\n' :: '\r' :: '\n' :: b)) = (l, b) := by
  induction l with
  | nil => rfl
  | cons c rest ih =>
    simp [noNL] at hl
    obtain ⟨⟨hc1, hc2⟩, hrest⟩ := hl
    rw [List.cons_append,
      splitHB_cons_other c _ (by rintro ⟨h, -⟩; exact hc1 h)
        (by rintro ⟨h, -⟩; exact hc2 h),
      ih hrest]

theorem splitHB_prefix (x : Str) (rest : Str) (hx : noNL x = true)
    (hr : ∃ c cs, rest = c :: cs ∧ c ≠ '\r' ∧ c ≠ '\n') :
    splitHB (x ++ ('\r' :: '\n' :: rest)) =
      (x ++ ('\r' :: '\n' :: (splitHB rest).1), (splitHB rest).2) := by
  obtain ⟨c, cs, hcs, hc1, hc2⟩ := hr
  induction x with
  | nil =>
    subst hcs
    simp only [List.nil_append]
    rw [splitHB_cons_other '\r' _
        (by
          rintro ⟨-, h⟩
          replace h : '\n' :: c :: cs.take 1 = ['\n', '\r', '\n'] := h
          injection h with _ h
          injection h with hc _
          exact hc1 hc)
        (by rintro ⟨h, -⟩; exact absurd h (by decide)),
      splitHB_cons_other '\n' _
        (by rintro ⟨h, -⟩; exact absurd h (by decide))
        (by
          rintro ⟨-, h⟩
          replace h : [c] = ['\n'] := h
          injection h with hc _
          exact hc2 hc)]
  | cons a x ih =>
    simp [noNL] at hx
    obtain ⟨⟨ha1, ha2⟩, hxrest⟩ := hx
    rw [List.cons_append,
      splitHB_cons_other a _ (by rintro ⟨h, -⟩; exact ha1 h)
        (by rintro ⟨h, -⟩; exact ha2 h),
      ih hxrest]
    simp

theorem joinCRLF_cons_shape (c : Char) (cs : Str) (rest : List Str) :
    ∃ t, joinCRLF ((c :: cs) :: rest) = c :: t := by
  cases rest with
  | nil => exact ⟨cs, rfl⟩
  | cons y ys => exact ⟨cs ++ crlf ++ joinCRLF (y :: ys), by simp [joinCRLF]⟩

theorem splitHB_join : ∀ (lines : List Str) (body : Str),
    (∀ l ∈ lines, noNL l = true ∧ l ≠ []) →
    splitHB (joinCRLF lines ++ ('\r' :: '\n' :: '\r' :: '\n' :: body)) =
      (joinCRLF lines, body)
  | [], body, _ => rfl
  | [x], body, h => splitHB_line x body (h x (by simp)).1
  | x :: y :: rest, body, h => by
    have hy := h y (by simp)
    obtain ⟨c, cs, hccs⟩ : ∃ c cs, y = c :: cs := by
      cases y with
      | nil => exact absurd rfl hy.2
      | cons c cs => exact ⟨c, cs, rfl⟩
    have hynl : ¬(c = '\r') ∧ ¬(c = '\n') := by
      have := hy.1
      rw [hccs] at this
      simp [noNL] at this
      exact this.1
    obtain ⟨t, ht⟩ := joinCRLF_cons_shape c cs rest
    have hind := splitHB_join (y :: rest) body (fun l hl => h l (by simp [hl]))
    have hshape : joinCRLF (y :: rest) ++ ('\r' :: '\n' :: '\r' :: '\n' :: body) =
        c :: (t ++ ('\r' :: '\n' :: '\r' :: '\n' :: body)) := by
      rw [hccs, ht]; rfl
    have hstep := splitHB_prefix x
      (joinCRLF (y :: rest) ++ ('\r' :: '\n' :: '\r' :: '\n' :: body))
      (h x (by simp)).1
      ⟨c, t ++ ('\r' :: '\n' :: '\r' :: '\n' :: body), hshape, hynl.1, hynl.2⟩
    have hjoin : joinCRLF (x :: y :: rest) = x ++ crlf ++ joinCRLF (y :: rest) := by
      simp [joinCRLF]
    rw [hjoin]
    rw [List.append_assoc, List.append_assoc]
    have : crlf ++ (joinCRLF (y :: rest) ++ ('\r' :: '\n' :: '\r' :: '\n' :: body)) =
        '\r' :: '\n' :: (joinCRLF (y :: rest) ++ ('\r' :: '\n' :: '\r' :: '\n' :: body)) := rfl
    rw [this, hstep, hind]
    simp [crlf, List.append_assoc]

theorem splitCRLF_cons_other (c : Char) (rest : Str) (hc : c ≠ '\r') :
    splitCRLF (c :: rest) =
      match splitCRLF rest with
      | [] => [[c]]
      | l :: ls => (c :: l) :: ls :=
  splitCRLF.eq_3 c rest (fun _ h _ => hc h)

theorem splitCRLF_noNL (l : Str) (hl : noNL l = true) : splitCRLF l = [l] := by
  induction l with
  | nil => rfl
  | cons c rest ih =>
    simp [noNL] at hl
    obtain ⟨⟨hc1, hc2⟩, hrest⟩ := hl
    rw [splitCRLF_cons_other c rest hc1, ih hrest]

theorem splitCRLF_line (x : Str) (rest : Str) (hx : noNL x = true) :
    splitCRLF (x ++ crlf ++ rest) = x :: splitCRLF rest := by
  induction x with
  | nil =>
    rw [show ([] : Str) ++ crlf ++ rest = '\r' :: '\n' :: rest from rfl,
      splitCRLF.eq_2]
  | cons c l ih =>
    simp [noNL] at hx
    obtain ⟨⟨hc1, hc2⟩, hl⟩ := hx
    have hshape : (c :: l) ++ crlf ++ rest = c :: (l ++ crlf ++ rest) := by simp
    rw [hshape, splitCRLF_cons_other c _ hc1, ih hl]

theorem splitCRLF_join : ∀ (lines : List Str),
    (∀ l ∈ lines, noNL l = true) → lines ≠ [] →
    splitCRLF (joinCRLF lines) = lines
  | [], _, hne => absurd rfl hne
  | [x], h, _ => splitCRLF_noNL x (h x (by simp))
  | x :: y :: rest, h, _ => by
    have hjoin : joinCRLF (x :: y :: rest) = x ++ crlf ++ joinCRLF (y :: rest) := by
      simp [joinCRLF]
    rw [hjoin, splitCRLF_line x _ (h x (by simp)),
      splitCRLF_join (y :: rest) (fun l hl => h l (by simp [hl])) (by simp)]

theorem lpfx_cons_false (a b : Char) (as bs : Str) (h : (a == b) = false) :
    lpfx (a :: as) (b :: bs) = false := by
  simp [lpfx, h]

theorem chompCRLF_append (t : Str) : chompCRLF (t ++ crlf) = t := by
  simp [chompCRLF, crlf, List.reverse_append]

/-- Alphanumeric characters (letters and digits). -/
def isAlnumC (c : Char) : Bool := c.isAlpha || c.isDigit

/-- Maximal runs of characters satisfying `p`; `cur` accumulates the
current run in reverse. -/
def tokensByGo (p : Char → Bool) (cur : Str) : Str → List Str
  | [] => if cur = [] then [] else [cur.reverse]
  | c :: rest =>
    if p c then tokensByGo p (c :: cur) rest
    else if cur = [] then tokensByGo p [] rest
    else cur.reverse :: tokensByGo p [] rest

/-- Maximal runs of characters satisfying `p`, in order. -/
def tokensBy (p : Char → Bool) (s : Str) : List Str := tokensByGo p [] s

/-- Modelled from the spec: the trigger words of the extraction heuristic
(§4.5): "code", "verification", "验证码", "OTP" (matched
case-insensitively). -/
def triggers : List Str := [str "code", str "verification", str "验证码", str "otp"]

/-- Modelled from the spec: scan for a trigger word and, within a short
distance (20 characters) after it, the first run of 4–8 alphanumeric
characters (§4.5 steps 1–2). -/
def triggerScan : Str → Option Str
  | [] => none
  | c :: rest =>
    match triggers.find? (fun tw => lpfx tw (lower (c :: rest))) with
    | some tw =>
      match (tokensBy isAlnumC (((c :: rest).drop tw.length).take 20)).find?
          (fun t => 4 ≤ t.length && t.length ≤ 8) with
      | some t => some t
      | none => triggerScan rest
    | none => triggerScan rest

/-- Modelled from the spec: the numeric-run fallback of §4.5 step 2 — the
first run of 4–8 digits. -/
def numericFallback (s : Str) : Option Str :=
  (tokensBy Char.isDigit s).find? (fun t => 4 ≤ t.length && t.length ≤ 8)

/-- Modelled from the spec: the body-search heuristic (§4.5 step 2):
trigger-word proximity first, then the numeric-run fallback. -/
def searchText (s : Str) : Option Str :=
  match triggerScan s with
  | some c => some c
  | none => numericFallback s

/-- Modelled from the spec: the subject heuristic (§4.5 step 1): the
trigger-word pattern, and a bare 4–8-digit run accepted only when it is
the dominant token of an otherwise short subject (modelled as: the
subject is at most 40 characters and contains exactly one such digit
run). -/
def searchSubject (s : Str) : Option Str :=
  match triggerScan s with
  | some c => some c
  | none =>
    match (tokensBy Char.isDigit s).filter (fun t => 4 ≤ t.length && t.length ≤ 8) with
    | [d] => if s.length ≤ 40 then some d else none
    | _ => none

/-- Modelled from the spec: `extractVerificationCode` of `email/parser.js`
is not among the provided sources.  Per §4.5 it searches subject, then
text, then the markup-stripped html, returning the first confident match
or the empty string. -/
def extractVerificationCode (subject text html : Str) : Str :=
  match searchSubject subject with
  | some c => c
  | none =>
    match searchText text with
    | some c => c
    | none =>
      match searchText (stripHtml html) with
      | some c => c
      | none => []

/-- Modelled from the spec: `extractCode` of `ui-helpers.js` is not among
the provided sources; it applies the same body heuristic (§4.5 step 2) to
the single content string the viewer passes it. -/
def extractCode (s : Str) : Str :=
  match searchText s with
  | some c => c
  | none => []

/-- Display-time code selection, translated from `showEmailDetail`
(src/public/js/modules/app/email-viewer.js lines 32–34): the persisted
code wins, otherwise the code is re-extracted from
`content || html_content || ''`. -/
def displayCode (verification_code : Option Str) (content html_content : Str) : Str :=
  jsOr (verification_code.getD []) (extractCode (jsOr content (jsOr html_content [])))

/-- Characters allowed in the local part of a conservative address
pattern. -/
def isLocalChar (c : Char) : Bool :=
  c.isAlphanum || c == '.' || c == '_' || c == '%' || c == '+' || c == '-'

/-- Characters allowed in the domain of a conservative address pattern. -/
def isDomainChar (c : Char) : Bool := c.isAlphanum || c == '.' || c == '-'

/-- Address candidate around an `'@'`: the local-part run read backwards
from `pre` (the reversed prefix) and the domain run read from `post`. -/
def emailAt (pre post : Str) : Option Str :=
  let lpart := (pre.takeWhile isLocalChar).reverse
  let dom := post.takeWhile isDomainChar
  if lpart ≠ [] ∧ dom ≠ [] then some (lpart ++ '@' :: dom) else none

/-- Scan for the first `'@'` with a non-empty local part and domain. -/
def findEmail (pre : Str) : Str → Option Str
  | [] => none
  | c :: rest =>
    if c = '@' then
      match emailAt pre rest with
      | some e => some e
      | none => findEmail (c :: pre) rest
    else findEmail (c :: pre) rest

/-- Modelled from the spec: `extractEmail` of `utils/common.js` is not
among the provided sources.  Per §4.1 it returns the first substring
matching a conservative `local@domain` pattern (case preserved), and
degrades to the trimmed original input when nothing matches. -/
def extractEmail (s : Str) : Str :=
  match findEmail [] s with
  | some e => e
  | none => trimWS s

/-- The columns bound by the ingestion INSERT
(src/unnamed/part_000 lines 79–90); `Option` models SQL NULL. -/
structure InsertedRow where
  mailbox_id : Int
  sender : Str
  to_addrs : Str
  subject : Str
  verification_code : Option Str
  preview : Option Str
  eml_content : Option Str
deriving DecidableEq

/--
Ingestion pipeline, translated from `handleEmailReceive`
(src/unnamed/part_000 lines 26–90): normalize the addresses, build the
envelope, compute the preview (collapse whitespace, trim, take 120) and
bind the row.  The code-extraction step is wrapped in try/catch there, so
its outcome is passed in as `extractResult`; an exception leaves the
verification code at the initial `''`.
-/
def ingestInsert (mailboxId : Int) (toAddr fromAddr subject text html dateStr boundary : Str)
    (extractResult : Except Unit Str) : InsertedRow :=
  let mailbox := extractEmail toAddr
  let sender := extractEmail fromAddr
  let eml := buildEnvelope sender mailbox subject text html dateStr boundary
  let previewBase := trimWS (collapseWS (jsOr text (stripHtml html)))
  let preview := previewBase.take 120
  let verificationCode := match extractResult with
    | .ok c => c
    | .error _ => []
  { mailbox_id := mailboxId
  , sender := sender
  , to_addrs := toAddr
  , subject := jsOr subject (str "(无主题)")
  , verification_code := if verificationCode ≠ [] then some verificationCode else none
  , preview := if preview ≠ [] then some preview else none
  , eml_content := if eml ≠ [] then some eml else none }

/-- A stored row of the `messages` table as the read path sees it;
`content`/`html_content` are the legacy columns consulted by the
compatibility fallbacks. -/
structure MessageRow where
  id : Int
  sender : Str
  to_addrs : Str
  subject : Str
  verification_code : Option Str
  preview : Option Str
  eml_content : Option Str
  received_at : Int
  is_read : Int
  content : Option Str
  html_content : Option Str
deriving DecidableEq

/-- JavaScript truthiness of a nullable string column. -/
def optTruthy (o : Option Str) : Bool :=
  match o with
  | some s => !s.isEmpty
  | none => false

/-- The string value of a nullable column, `''` for NULL. -/
def optStr (o : Option Str) : Str := o.getD []

/--
Content computation of the batch read path, translated from
`handleEmailsApi` (src/unnamed/part_001 lines 112–133).  The
`parseEmailBody` call sits in a try/catch, so its outcome is passed in as
`pr`; an exception leaves both strings empty.
-/
def batchContent (row : MessageRow) (pr : Except Unit ParsedBody) : Str × Str :=
  let p := if optTruthy row.eml_content then
      (match pr with
        | .ok q => q
        | .error _ => ⟨[], []⟩)
    else ⟨[], []⟩
  let c0 := p.text
  let h0 := p.html
  let c1 := if c0 = [] ∧ h0 = [] ∧ optTruthy row.eml_content then optStr row.eml_content else c0
  let c2 := if c1 = [] ∧ h0 = [] ∧ optTruthy row.preview then optStr row.preview else c1
  (c2, h0)

/--
Content computation of the single-detail read path, translated from
`handleEmailsApi` (src/unnamed/part_001 lines 220–251): parse, substitute
the raw blob, then the legacy `content`/`html_content` columns
(Fallback 1), then the preview (Fallback 2).
-/
def detailContent (row : MessageRow) (pr : Except Unit ParsedBody) : Str × Str :=
  let p := if optTruthy row.eml_content then
      (match pr with
        | .ok q => q
        | .error _ => ⟨[], []⟩)
    else ⟨[], []⟩
  let c0 := p.text
  let h0 := p.html
  let c1 := if c0 = [] ∧ h0 = [] ∧ optTruthy row.eml_content then optStr row.eml_content else c0
  let c2 := if c1 = [] ∧ h0 = [] then jsOr (jsOr c1 (optStr row.content)) [] else c1
  let h1 := if c1 = [] ∧ h0 = [] then jsOr (jsOr h0 (optStr row.html_content)) [] else h0
  let c3 := if c2 = [] ∧ h1 = [] ∧ optTruthy row.preview then optStr row.preview else c2
  (c3, h1)

/-- The `UPDATE messages SET is_read = 1 WHERE id = ?` effect
(src/unnamed/part_001 lines 218 and 260). -/
def markRead (store : List MessageRow) (emailId : Int) : List MessageRow :=
  store.map fun r => if r.id = emailId then { r with is_read := 1 } else r

/-- Store effect of a single-detail read: the update runs only after the
SELECT found the row; SELECTs themselves do not mutate the store. -/
def detailReadStore (store : List MessageRow) (emailId : Int) : List MessageRow :=
  if store.any (fun r => r.id == emailId) then markRead store emailId else store

/-- A JSON field value as the ingestion endpoint can receive it. -/
inductive JVal where
  | jnull
  | jbool (b : Bool)
  | jnum (n : Int)
  | jstr (s : Str)
deriving DecidableEq

/-- JavaScript truthiness of a JSON value. -/
def jsTruthy : JVal → Bool
  | .jnull => false
  | .jbool b => b
  | .jnum n => n != 0
  | .jstr s => !s.isEmpty

/-- Decimal rendering of an integer. -/
def intToStr (i : Int) : Str :=
  if i < 0 then '-' :: Nat.toDigits 10 i.natAbs else Nat.toDigits 10 i.natAbs

/-- JavaScript `String(v)` on a JSON value. -/
def jsString : JVal → Str
  | .jnull => str "null"
  | .jbool true => str "true"
  | .jbool false => str "false"
  | .jnum n => intToStr n
  | .jstr s => s

/-- JavaScript `String(v || dflt)` on an optional field (`undefined` when
the field is missing). -/
def coalesceStr (v : Option JVal) (dflt : Str) : Str :=
  match v with
  | some j => if jsTruthy j then jsString j else dflt
  | none => dflt

/-- The JSON ingestion payload: all five fields optional. -/
structure IngestPayload where
  toF : Option JVal
  fromF : Option JVal
  subject : Option JVal
  text : Option JVal
  html : Option JVal

/-- The five coerced string fields. -/
structure IngestFields where
  toF : Str
  fromF : Str
  subject : Str
  text : Str
  html : Str
deriving DecidableEq

/-- Field coercion of `handleEmailReceive` (src/unnamed/part_000
lines 20–24): each field is `String(v || '')`, the subject
`String(v || '(无主题)')`. -/
def ingestFields (d : IngestPayload) : IngestFields :=
  { toF := coalesceStr d.toF []
  , fromF := coalesceStr d.fromF []
  , subject := coalesceStr d.subject (str "(无主题)")
  , text := coalesceStr d.text []
  , html := coalesceStr d.html [] }

/-- Digit-run value for `parseInt`. -/
def digitsVal (s : Str) : Option Nat :=
  let ds := s.takeWhile Char.isDigit
  if ds = [] then none
  else some (ds.foldl (fun a c => a * 10 + (c.toNat - 48)) 0)

/-- JavaScript `parseInt(s, 10)`: skip leading whitespace, optional sign,
then leading digits; `none` models NaN. -/
def parseIntJS (s : Str) : Option Int :=
  let t := s.dropWhile isWS
  match t with
  | '-' :: rest => (digitsVal rest).map (fun n => -(n : Int))
  | '+' :: rest => (digitsVal rest).map (fun n => (n : Int))
  | _ => (digitsVal t).map (fun n => (n : Int))

/-- The list-endpoint limit string: `url.searchParams.get('limit') || '20'`
(src/unnamed/part_001 line 48). -/
def limitParamStr (p : Option Str) : Str := jsOr (p.getD []) (str "20")

/-- The effective LIMIT bound to the query:
`Math.min(parseInt(limit, 10), 50)`; `none` models NaN. -/
def effectiveLimit (p : Option Str) : Option Int :=
  (parseIntJS (limitParamStr p)).map (fun n => min n 50)

/-- Split on commas. -/
def splitComma : Str → List Str
  | [] => [[]]
  | c :: rest =>
    if c = ',' then [] :: splitComma rest
    else
      match splitComma rest with
      | [] => [[c]]
      | l :: ls => (c :: l) :: ls

/-- The id list of the batch endpoint for an already-trimmed parameter:
split on commas, `parseInt` each piece, keep positive integers
(src/unnamed/part_001 line 84). -/
def batchIdsOf (p : Str) : List Int :=
  (((splitComma p).map parseIntJS).filterMap id).filter (fun n => decide (0 < n))

/-- The id list the batch endpoint computes from the raw `ids`
parameter. -/
def batchIds (idsParam : Option Str) : List Int :=
  batchIdsOf (trimWS (idsParam.getD []))

/-- Outcome of the batch endpoint before any datastore access: only
`queried` reaches the datastore. -/
inductive BatchOutcome where
  | emptyList
  | clientError
  | queried (ids : List Int)
deriving DecidableEq

/-- Control flow of the batch endpoint (src/unnamed/part_001
lines 82–89): empty parameter or no valid ids answer `[]`; more than 50
ids answer a 400 client error before any query; otherwise the ids are
queried. -/
def batchOutcome (idsParam : Option Str) : BatchOutcome :=
  let p := trimWS (idsParam.getD [])
  if p = [] then .emptyList
  else
    let ids := batchIdsOf p
    if ids = [] then .emptyList
    else if 50 < ids.length then .clientError
    else .queried ids

theorem append_ne_nil_left {a b : Str} (h : a ≠ []) : a ++ b ≠ [] := by
  cases a with
  | nil => exact absurd rfl h
  | cons c l => simp

theorem roundtrip_core (sender mailbox subject text dateStr boundary : Str)
    (hs : noNL sender = true) (hm : noNL mailbox = true)
    (hsub : noNL subject = true) (hd : noNL dateStr = true) :
    parseBody (buildEnvelope sender mailbox subject text [] dateStr boundary) =
      ⟨text ++ crlf, []⟩ := by
  have hlines : ∀ l ∈ [str "From: <" ++ sender ++ str ">",
      str "To: <" ++ mailbox ++ str ">",
      str "Subject: " ++ subject,
      str "Date: " ++ dateStr,
      str "MIME-Version: 1.0",
      str "Content-Type: text/plain; charset=\"utf-8\"",
      str "Content-Transfer-Encoding: 8bit"], noNL l = true ∧ l ≠ [] := by
    intro l hl
    simp only [List.mem_cons, List.not_mem_nil, or_false] at hl
    rcases hl with h | h | h | h | h | h | h <;> subst h
    · exact ⟨noNL_append (noNL_append (by decide) hs) (by decide),
        append_ne_nil_left (append_ne_nil_left (by decide))⟩
    · exact ⟨noNL_append (noNL_append (by decide) hm) (by decide),
        append_ne_nil_left (append_ne_nil_left (by decide))⟩
    · exact ⟨noNL_append (by decide) hsub, append_ne_nil_left (by decide)⟩
    · exact ⟨noNL_append (by decide) hd, append_ne_nil_left (by decide)⟩
    · exact ⟨by decide, by decide⟩
    · exact ⟨by decide, by decide⟩
    · exact ⟨by decide, by decide⟩
  have henv : buildEnvelope sender mailbox subject text [] dateStr boundary =
      joinCRLF [str "From: <" ++ sender ++ str ">",
        str "To: <" ++ mailbox ++ str ">",
        str "Subject: " ++ subject,
        str "Date: " ++ dateStr,
        str "MIME-Version: 1.0",
        str "Content-Type: text/plain; charset=\"utf-8\"",
        str "Content-Transfer-Encoding: 8bit"] ++
        ('\r' :: '\n' :: '\r' :: '\n' :: (text ++ crlf)) := by
    simp [buildEnvelope, joinCRLF, crlf, List.append_assoc]
  have hsplit : splitHB (buildEnvelope sender mailbox subject text [] dateStr boundary) =
      (joinCRLF [str "From: <" ++ sender ++ str ">",
        str "To: <" ++ mailbox ++ str ">",
        str "Subject: " ++ subject,
        str "Date: " ++ dateStr,
        str "MIME-Version: 1.0",
        str "Content-Type: text/plain; charset=\"utf-8\"",
        str "Content-Transfer-Encoding: 8bit"], text ++ crlf) := by
    rw [henv]
    exact splitHB_join _ _ hlines
  have hsplitlines : splitCRLF (joinCRLF [str "From: <" ++ sender ++ str ">",
      str "To: <" ++ mailbox ++ str ">",
      str "Subject: " ++ subject,
      str "Date: " ++ dateStr,
      str "MIME-Version: 1.0",
      str "Content-Type: text/plain; charset=\"utf-8\"",
      str "Content-Transfer-Encoding: 8bit"]) =
      [str "From: <" ++ sender ++ str ">",
       str "To: <" ++ mailbox ++ str ">",
       str "Subject: " ++ subject,
       str "Date: " ++ dateStr,
       str "MIME-Version: 1.0",
       str "Content-Type: text/plain; charset=\"utf-8\"",
       str "Content-Transfer-Encoding: 8bit"] :=
    splitCRLF_join _ (fun l hl => (hlines l hl).1) (by simp)
  have lowF : lower (str "From: <" ++ sender ++ str ">") =
      'f' :: (str "rom: <" ++ (lower sender ++ List.map Char.toLower (str ">"))) := by
    simp only [lower, List.map_append]
    rw [show List.map Char.toLower (str "From: <") = 'f' :: str "rom: <" from by decide]
    simp [List.append_assoc]
  have lowT : lower (str "To: <" ++ mailbox ++ str ">") =
      't' :: (str "o: <" ++ (lower mailbox ++ List.map Char.toLower (str ">"))) := by
    simp only [lower, List.map_append]
    rw [show List.map Char.toLower (str "To: <") = 't' :: str "o: <" from by decide]
    simp [List.append_assoc]
  have lowS : lower (str "Subject: " ++ subject) =
      's' :: (str "ubject: " ++ lower subject) := by
    simp only [lower, List.map_append]
    rw [show List.map Char.toLower (str "Subject: ") = 's' :: str "ubject: " from by decide]
    simp [List.append_assoc]
  have lowD : lower (str "Date: " ++ dateStr) =
      'd' :: (str "ate: " ++ lower dateStr) := by
    simp only [lower, List.map_append]
    rw [show List.map Char.toLower (str "Date: ") = 'd' :: str "ate: " from by decide]
    simp [List.append_assoc]
  have hn1 : str "content-type" ++ [':'] = 'c' :: str "ontent-type:" := by decide
  have hn2 : str "content-transfer-encoding" ++ [':'] =
      'c' :: str "ontent-transfer-encoding:" := by decide
  have hv1 : headerValue (str "content-type")
      (joinCRLF [str "From: <" ++ sender ++ str ">",
        str "To: <" ++ mailbox ++ str ">",
        str "Subject: " ++ subject,
        str "Date: " ++ dateStr,
        str "MIME-Version: 1.0",
        str "Content-Type: text/plain; charset=\"utf-8\"",
        str "Content-Transfer-Encoding: 8bit"]) =
      some (str " text/plain; charset=\"utf-8\"") := by
    unfold headerValue
    rw [hsplitlines]
    rw [List.find?_cons_of_neg _ (by rw [lowF, hn1, lpfx_cons_false _ _ _ _ (by decide)]; simp),
      List.find?_cons_of_neg _ (by rw [lowT, hn1, lpfx_cons_false _ _ _ _ (by decide)]; simp),
      List.find?_cons_of_neg _ (by rw [lowS, hn1, lpfx_cons_false _ _ _ _ (by decide)]; simp),
      List.find?_cons_of_neg _ (by rw [lowD, hn1, lpfx_cons_false _ _ _ _ (by decide)]; simp),
      List.find?_cons_of_neg _ (by decide),
      List.find?_cons_of_pos _ (by decide)]
    decide
  have hv2 : headerValue (str "content-transfer-encoding")
      (joinCRLF [str "From: <" ++ sender ++ str ">",
        str "To: <" ++ mailbox ++ str ">",
        str "Subject: " ++ subject,
        str "Date: " ++ dateStr,
        str "MIME-Version: 1.0",
        str "Content-Type: text/plain; charset=\"utf-8\"",
        str "Content-Transfer-Encoding: 8bit"]) =
      some (str " 8bit") := by
    unfold headerValue
    rw [hsplitlines]
    rw [List.find?_cons_of_neg _ (by rw [lowF, hn2, lpfx_cons_false _ _ _ _ (by decide)]; simp),
      List.find?_cons_of_neg _ (by rw [lowT, hn2, lpfx_cons_false _ _ _ _ (by decide)]; simp),
      List.find?_cons_of_neg _ (by rw [lowS, hn2, lpfx_cons_false _ _ _ _ (by decide)]; simp),
      List.find?_cons_of_neg _ (by rw [lowD, hn2, lpfx_cons_false _ _ _ _ (by decide)]; simp),
      List.find?_cons_of_neg _ (by decide),
      List.find?_cons_of_neg _ (by decide),
      List.find?_cons_of_pos _ (by decide)]
    decide
  simp only [parseBody]
  rw [hsplit]
  dsimp only
  rw [hv1]
  simp only [Option.getD_some]
  simp only [show lower (trimWS (str " text/plain; charset=\"utf-8\"")) =
      str "text/plain; charset=\"utf-8\"" from by decide]
  simp only [show containsSub (str "multipart/") (str "text/plain; charset=\"utf-8\"") = false
      from by decide]
  simp only [Bool.false_eq_true, if_false]
  rw [hv2]
  simp only [Option.getD_some]
  simp only [show lower (trimWS (str " 8bit")) = str "8bit" from by decide]
  simp only [show ∀ b : Str, decodeBody (str "8bit") b = b from fun b => by
    unfold decodeBody
    rw [if_neg (by decide), if_neg (by decide)]]
  simp only [show containsSub (str "text/html") (str "text/plain; charset=\"utf-8\"") = false
      from by decide]
  simp

end Freemail

namespace Freemail

/-- **C1.**  For every ingestion input whose `html` field is non-empty, the
envelope builder emits the headers `From`, `To`, `Subject`, `Date`,
`MIME-Version: 1.0` and `Content-Type: multipart/alternative` with a
boundary parameter, a blank line, then a `text/plain` part whose body is the
`text` field followed by a `text/html` part whose body is the `html` field,
each part preceded by a line `--boundary`, the whole closed by
`--boundary--`. -/
theorem envelope_multipart_shape
    (sender mailbox subject text html dateStr boundary : Str) (h : html ≠ []) :
    buildEnvelope sender mailbox subject text html dateStr boundary =
      str "From: <" ++ sender ++ str ">" ++ crlf ++
      str "To: <" ++ mailbox ++ str ">" ++ crlf ++
      str "Subject: " ++ subject ++ crlf ++
      str "Date: " ++ dateStr ++ crlf ++
      str "MIME-Version: 1.0" ++ crlf ++
      str "Content-Type: multipart/alternative; boundary=\"" ++ boundary ++ str "\"" ++ crlf ++
      crlf ++
      (str "--" ++ boundary ++ crlf ++
        str "Content-Type: text/plain; charset=\"utf-8\"" ++ crlf ++
        str "Content-Transfer-Encoding: 8bit" ++ crlf ++
        crlf ++
        text ++ crlf) ++
      (str "--" ++ boundary ++ crlf ++
        str "Content-Type: text/html; charset=\"utf-8\"" ++ crlf ++
        str "Content-Transfer-Encoding: 8bit" ++ crlf ++
        crlf ++
        html ++ crlf) ++
      (str "--" ++ boundary ++ str "--" ++ crlf) := by
  simp [buildEnvelope, h, joinCRLF, List.append_assoc]

/-- Witness for `envelope_multipart_shape` at a concrete input. -/
theorem envelope_multipart_shape_witness :
    str "<b>x</b>" ≠ [] ∧
    buildEnvelope (str "a@b") (str "c@d") (str "s") (str "t") (str "<b>x</b>")
        (str "D") (str "B") =
      str "From: <" ++ str "a@b" ++ str ">" ++ crlf ++
      str "To: <" ++ str "c@d" ++ str ">" ++ crlf ++
      str "Subject: " ++ str "s" ++ crlf ++
      str "Date: " ++ str "D" ++ crlf ++
      str "MIME-Version: 1.0" ++ crlf ++
      str "Content-Type: multipart/alternative; boundary=\"" ++ str "B" ++ str "\"" ++ crlf ++
      crlf ++
      (str "--" ++ str "B" ++ crlf ++
        str "Content-Type: text/plain; charset=\"utf-8\"" ++ crlf ++
        str "Content-Transfer-Encoding: 8bit" ++ crlf ++
        crlf ++
        str "t" ++ crlf) ++
      (str "--" ++ str "B" ++ crlf ++
        str "Content-Type: text/html; charset=\"utf-8\"" ++ crlf ++
        str "Content-Transfer-Encoding: 8bit" ++ crlf ++
        crlf ++
        str "<b>x</b>" ++ crlf) ++
      (str "--" ++ str "B" ++ str "--" ++ crlf) :=
  ⟨by decide,
   envelope_multipart_shape (str "a@b") (str "c@d") (str "s") (str "t")
     (str "<b>x</b>") (str "D") (str "B") (by decide)⟩

/-- **C2, as stated, is false**: a `MessageEnvelopeInput` whose subject
itself contains a CRLF CRLF sequence injects a blank line into the header
block, so the parser cuts the headers early and the parsed text is the
remainder of the header block plus the body, not the input `text`. -/
theorem roundtrip_counterexample :
    ¬ ((parseBody (buildEnvelope (str "s@x") (str "m@x") (str "A\r\n\r\nB")
          (str "hello") [] (str "D") (str "B"))).html = [] ∧
       chompCRLF ((parseBody (buildEnvelope (str "s@x") (str "m@x") (str "A\r\n\r\nB")
          (str "hello") [] (str "D") (str "B"))).text) = str "hello") := by
  decide

/-- **C2 (amended).**  For every `MessageEnvelopeInput` with non-empty
`text`, empty `html`, and sender, recipient, subject (and timestamp) free
of CR/LF characters, parsing the envelope the builder produced yields a
`ParsedBody` whose text equals the input text modulo line-ending
normalization (the parser keeps the final CRLF the builder appends) and
whose html is the empty string. -/
theorem roundtrip_single_part (sender mailbox subject text dateStr boundary : Str)
    (hs : noNL sender = true) (hm : noNL mailbox = true)
    (hsub : noNL subject = true) (hd : noNL dateStr = true)
    (htext : text ≠ []) :
    (parseBody (buildEnvelope sender mailbox subject text [] dateStr boundary)).html = [] ∧
    chompCRLF ((parseBody
      (buildEnvelope sender mailbox subject text [] dateStr boundary)).text) = text := by
  rw [roundtrip_core sender mailbox subject text dateStr boundary hs hm hsub hd]
  exact ⟨rfl, chompCRLF_append text⟩

/-- Witness for `roundtrip_single_part` at a concrete input. -/
theorem roundtrip_single_part_witness :
    (noNL (str "s@x") = true ∧ noNL (str "m@x") = true ∧ noNL (str "Hi") = true ∧
     noNL (str "D") = true ∧ str "hello" ≠ []) ∧
    ((parseBody (buildEnvelope (str "s@x") (str "m@x") (str "Hi") (str "hello") []
        (str "D") (str "B"))).html = [] ∧
     chompCRLF ((parseBody (buildEnvelope (str "s@x") (str "m@x") (str "Hi") (str "hello") []
        (str "D") (str "B"))).text) = str "hello") :=
  ⟨⟨by decide, by decide, by decide, by decide, by decide⟩,
   roundtrip_single_part (str "s@x") (str "m@x") (str "Hi") (str "hello") (str "D")
     (str "B") (by decide) (by decide) (by decide) (by decide) (by decide)⟩

/-- **C4, as stated, is false**: the ingestion-time computation searches
the subject, but the display-time recomputation only sees the parsed
content; a message whose code appears only in the subject yields a code at
ingestion and none at display time. -/
theorem extract_display_counterexample :
    extractVerificationCode (str "code 1234") (str "hello") [] ≠
      displayCode none
        ((parseBody (buildEnvelope (str "s@x") (str "m@x") (str "code 1234")
          (str "hello") [] (str "D") (str "B"))).text) [] := by
  decide

/-- **C4 (amended).**  The two computations share the body heuristic but
are not identical: the display-time recomputation never sees the subject
(and is given raw rather than stripped html).  Whenever the subject search
finds nothing and html is empty, the ingestion-time computation over
(subject, text, html) equals the display-time recomputation over the text
content. -/
theorem extract_ingest_display_agree (subject text : Str)
    (hsubj : searchSubject subject = none) :
    extractVerificationCode subject text [] = displayCode none text [] := by
  have hstrip : stripHtml [] = [] := by
    simp [stripHtml, removeTags, decodeEntities, collapseWS, collapseFrom, trimWS]
  have hempty : searchText ([] : Str) = none := by
    simp [searchText, triggerScan, numericFallback, tokensBy, tokensByGo]
  unfold extractVerificationCode displayCode extractCode
  rw [hsubj, hstrip, hempty]
  have hj : jsOr text (jsOr [] []) = text := by
    unfold jsOr
    by_cases ht : text = [] <;> simp [ht]
  rw [Option.getD_none, hj]
  cases hst : searchText text <;> simp [jsOr, hst]

/-- Witness for `extract_ingest_display_agree` at a concrete input. -/
theorem extract_ingest_display_agree_witness :
    searchSubject (str "hi") = none ∧
    extractVerificationCode (str "hi") (str "your otp is 48213 ok") [] =
      displayCode none (str "your otp is 48213 ok") [] :=
  ⟨by decide,
   extract_ingest_display_agree (str "hi") (str "your otp is 48213 ok") (by decide)⟩

/-- **C3, as stated, is false**: for `text = "a\nb"` (and empty `html`) the
produced message contains a line terminated by a bare LF, so not every line
of the message is terminated by CRLF. -/
theorem envelope_crlf_counterexample :
    ¬ (crlfOk (buildEnvelope (str "a@b") (str "c@d") (str "s") (str "a\nb") []
          (str "D") (str "B")) = true ∧
       endsCRLF (buildEnvelope (str "a@b") (str "c@d") (str "s") (str "a\nb") []
          (str "D") (str "B"))) := by
  decide

/-- **C3 (amended).**  For every ingestion input with empty `html` the
builder produces a single-part message with header
`Content-Type: text/plain; charset="utf-8"` and body equal to the `text`
field; and whenever all input fields themselves follow CRLF line discipline,
every newline of the produced message (multipart or single-part) is a CRLF
pair and the message ends with CRLF. -/
theorem envelope_single_part_and_crlf
    (sender mailbox subject text html dateStr boundary : Str) :
    (html = [] →
      buildEnvelope sender mailbox subject text html dateStr boundary =
        str "From: <" ++ sender ++ str ">" ++ crlf ++
        str "To: <" ++ mailbox ++ str ">" ++ crlf ++
        str "Subject: " ++ subject ++ crlf ++
        str "Date: " ++ dateStr ++ crlf ++
        str "MIME-Version: 1.0" ++ crlf ++
        str "Content-Type: text/plain; charset=\"utf-8\"" ++ crlf ++
        str "Content-Transfer-Encoding: 8bit" ++ crlf ++
        crlf ++
        text ++ crlf) ∧
    (crlfOk sender = true → crlfOk mailbox = true → crlfOk subject = true →
      crlfOk dateStr = true → crlfOk boundary = true → crlfOk text = true →
      crlfOk html = true →
      crlfOk (buildEnvelope sender mailbox subject text html dateStr boundary) = true ∧
      endsCRLF (buildEnvelope sender mailbox subject text html dateStr boundary)) := by
  refine ⟨?_, ?_⟩
  · intro h0
    simp [buildEnvelope, h0, joinCRLF, List.append_assoc]
  intro hs hm hsub hd hb ht hh
  refine ⟨?_, ?_⟩
  · by_cases h0 : html = []
    · simp only [buildEnvelope, h0, ne_eq, not_true_eq_false, if_false, joinCRLF,
        List.append_assoc, List.append_nil]
      repeat
        first
        | assumption
        | decide
        | exact crlfOk_append (by decide) (by assumption)
        | apply crlfOk_append (by decide)
        | apply crlfOk_append (by assumption)
    · simp only [buildEnvelope, h0, ne_eq, not_false_eq_true, if_true, joinCRLF,
        List.append_assoc, List.append_nil]
      repeat
        first
        | assumption
        | decide
        | exact crlfOk_append (by decide) (by assumption)
        | apply crlfOk_append (by decide)
        | apply crlfOk_append (by assumption)
  · by_cases h0 : html = []
    · have : buildEnvelope sender mailbox subject text html dateStr boundary =
          (str "From: <" ++ sender ++ str ">" ++ crlf ++
           str "To: <" ++ mailbox ++ str ">" ++ crlf ++
           str "Subject: " ++ subject ++ crlf ++
           str "Date: " ++ dateStr ++ crlf ++
           str "MIME-Version: 1.0" ++ crlf ++
           str "Content-Type: text/plain; charset=\"utf-8\"" ++ crlf ++
           str "Content-Transfer-Encoding: 8bit" ++ crlf ++
           crlf ++ text) ++ crlf := by
        simp [buildEnvelope, h0, joinCRLF, List.append_assoc]
      rw [this]
      exact endsCRLF_append _
    · have : buildEnvelope sender mailbox subject text html dateStr boundary =
          (str "From: <" ++ sender ++ str ">" ++ crlf ++
           str "To: <" ++ mailbox ++ str ">" ++ crlf ++
           str "Subject: " ++ subject ++ crlf ++
           str "Date: " ++ dateStr ++ crlf ++
           str "MIME-Version: 1.0" ++ crlf ++
           str "Content-Type: multipart/alternative; boundary=\"" ++ boundary ++ str "\"" ++ crlf ++
           crlf ++
           str "--" ++ boundary ++ crlf ++
           str "Content-Type: text/plain; charset=\"utf-8\"" ++ crlf ++
           str "Content-Transfer-Encoding: 8bit" ++ crlf ++
           crlf ++
           text ++ crlf ++
           str "--" ++ boundary ++ crlf ++
           str "Content-Type: text/html; charset=\"utf-8\"" ++ crlf ++
           str "Content-Transfer-Encoding: 8bit" ++ crlf ++
           crlf ++
           html ++ crlf ++
           str "--" ++ boundary ++ str "--") ++ crlf := by
        simp [buildEnvelope, h0, joinCRLF, List.append_assoc]
      rw [this]
      exact endsCRLF_append _

/-- **C6.**  An exception inside the code-extraction step is caught and
leaves the initial empty code, so the inserted row is identical to the one
of a run where extraction returned the empty result: NULL verification
code, and preview, raw message, subject and sender unchanged. -/
theorem ingest_extraction_failure_eq
    (mailboxId : Int) (toAddr fromAddr subject text html dateStr boundary : Str)
    (e : Unit) :
    ingestInsert mailboxId toAddr fromAddr subject text html dateStr boundary
        (Except.error e) =
      ingestInsert mailboxId toAddr fromAddr subject text html dateStr boundary
        (Except.ok []) := rfl

/-- **C8.**  The stored preview is the text field (or, when text is empty,
the markup-stripped html) with whitespace runs collapsed and trimmed,
truncated to at most 120 characters, and is stored as NULL exactly when
that result is empty. -/
theorem preview_truncation
    (mailboxId : Int) (toAddr fromAddr subject text html dateStr boundary : Str)
    (res : Except Unit Str) :
    ((ingestInsert mailboxId toAddr fromAddr subject text html dateStr boundary
        res).preview = none ↔
      trimWS (collapseWS (if text = [] then stripHtml html else text)) = []) ∧
    (∀ p, (ingestInsert mailboxId toAddr fromAddr subject text html dateStr boundary
        res).preview = some p →
      p = (trimWS (collapseWS (if text = [] then stripHtml html else text))).take 120 ∧
      p.length ≤ 120) := by
  have hbase : jsOr text (stripHtml html) = if text = [] then stripHtml html else text := by
    unfold jsOr
    by_cases ht : text = [] <;> simp [ht]
  unfold ingestInsert
  rw [hbase]
  dsimp only
  by_cases hB : (trimWS (collapseWS (if text = [] then stripHtml html else text))).take 120 = []
  · rw [if_neg (by simpa using hB)]
    constructor
    · simp only [List.take_eq_nil_iff] at hB
      simp [hB.resolve_left (by decide)]
    · intro p hp
      exact absurd hp (by simp)
  · rw [if_pos hB]
    constructor
    · constructor
      · intro h
        exact absurd h (by simp)
      · intro h
        exact absurd (by rw [h] : (trimWS (collapseWS
          (if text = [] then stripHtml html else text))).take 120 = ([] : Str).take 120) hB
    · intro p hp
      have hp' : p = (trimWS (collapseWS (if text = [] then stripHtml html else text))).take 120 := by
        simpa using hp.symm
      exact ⟨hp', hp' ▸ List.length_take_le _ _⟩

/-- Witness for `preview_truncation` at a concrete input. -/
theorem preview_truncation_witness :
    ((ingestInsert 1 (str "a@b") (str "c@d") (str "s") (str "  hi   there  ") []
        (str "D") (str "B") (Except.ok [])).preview = none ↔
      trimWS (collapseWS (if str "  hi   there  " = [] then stripHtml []
        else str "  hi   there  ")) = []) ∧
    (∀ p, (ingestInsert 1 (str "a@b") (str "c@d") (str "s") (str "  hi   there  ") []
        (str "D") (str "B") (Except.ok [])).preview = some p →
      p = (trimWS (collapseWS (if str "  hi   there  " = [] then stripHtml []
        else str "  hi   there  "))).take 120 ∧
      p.length ≤ 120) :=
  preview_truncation 1 (str "a@b") (str "c@d") (str "s") (str "  hi   there  ") []
    (str "D") (str "B") (Except.ok [])

/-- **C5, as stated, is false**: on the single-detail path a row whose raw
blob is absent but whose legacy `content` column is populated is served
the legacy content, not the previously stored preview. -/
theorem read_fallback_counterexample :
    (detailContent
        { id := 1, sender := [], to_addrs := [], subject := [],
          verification_code := none, preview := some (str "p"),
          eml_content := none, received_at := 0, is_read := 0,
          content := some (str "old"), html_content := none }
        (Except.ok ⟨[], []⟩)).1 = str "old" ∧
    ¬ (detailContent
        { id := 1, sender := [], to_addrs := [], subject := [],
          verification_code := none, preview := some (str "p"),
          eml_content := none, received_at := 0, is_read := 0,
          content := some (str "old"), html_content := none }
        (Except.ok ⟨[], []⟩)).1 = str "p" := by
  constructor
  · rfl
  · decide

theorem jsOr_nil_left (x : Str) : jsOr [] x = x := by
  simp [jsOr]

theorem jsOr_nil_right (x : Str) : jsOr x [] = x := by
  unfold jsOr
  by_cases h : x = [] <;> simp [h]

/-- **C5 (amended).**  When the raw message parses to empty text and html,
both read paths first substitute the raw blob verbatim as the text
content — the blob takes priority over every later fallback, legacy
columns included.  When the blob is also absent, the batch path falls back
directly to the stored preview, while the single-detail path serves the
legacy `content`/`html_content` columns and falls back to the preview only
when those are also empty.  A parse exception is absorbed: it produces
exactly the output of the parsed-empty case, so no error is surfaced for
an unparsable message. -/
theorem read_fallback_chain (row : MessageRow) (pr : Except Unit ParsedBody)
    (hp : pr = Except.ok ⟨[], []⟩) :
    (optTruthy row.eml_content = true →
      batchContent row pr = (optStr row.eml_content, []) ∧
      detailContent row pr = (optStr row.eml_content, [])) ∧
    (optTruthy row.eml_content = false →
      batchContent row pr =
        (if optTruthy row.preview = true then optStr row.preview else [], [])) ∧
    (optTruthy row.eml_content = false →
      detailContent row pr =
        if optStr row.content = [] ∧ optStr row.html_content = [] ∧
            optTruthy row.preview = true
        then (optStr row.preview, [])
        else (optStr row.content, optStr row.html_content)) ∧
    (∀ e : Unit,
      batchContent row (Except.error e) = batchContent row (Except.ok ⟨[], []⟩) ∧
      detailContent row (Except.error e) = detailContent row (Except.ok ⟨[], []⟩)) := by
  subst hp
  have hne : optTruthy row.eml_content = true → optStr row.eml_content ≠ [] := by
    cases he : row.eml_content with
    | none => simp [optTruthy]
    | some s => simp [optTruthy, optStr]
  refine ⟨?_, ?_, ?_, ?_⟩
  · intro ht
    constructor
    · simp [batchContent, ht, hne ht]
    · simp [detailContent, ht, hne ht]
  · intro ht
    by_cases hpv : optTruthy row.preview = true
    · simp [batchContent, ht, hpv]
    · simp [batchContent, ht, hpv]
  · intro ht
    by_cases hcond : optStr row.content = [] ∧ optStr row.html_content = [] ∧
        optTruthy row.preview = true
    · rw [if_pos hcond]
      simp [detailContent, ht, jsOr_nil_left, jsOr_nil_right,
        hcond.1, hcond.2.1, hcond.2.2]
    · rw [if_neg hcond]
      simp only [detailContent, ht, Bool.false_eq_true, if_false]
      simp [jsOr_nil_left, jsOr_nil_right, hcond]
  · intro e
    exact ⟨rfl, rfl⟩

/-- A concrete row with absent raw blob, populated legacy `content` column
and populated preview: the legacy column is served, not the preview. -/
def legacyRow : MessageRow :=
  { id := 1, sender := [], to_addrs := [], subject := [],
    verification_code := none, preview := some (str "p"),
    eml_content := none, received_at := 0, is_read := 0,
    content := some (str "old"), html_content := none }

/-- Witness for `read_fallback_chain` at a concrete legacy-populated
row. -/
theorem read_fallback_chain_witness :
    ((Except.ok ⟨[], []⟩ : Except Unit ParsedBody) = Except.ok ⟨[], []⟩) ∧
    optTruthy legacyRow.eml_content = false ∧
    detailContent legacyRow (Except.ok ⟨[], []⟩) =
      (if optStr legacyRow.content = [] ∧ optStr legacyRow.html_content = [] ∧
          optTruthy legacyRow.preview = true
       then (optStr legacyRow.preview, [])
       else (optStr legacyRow.content, optStr legacyRow.html_content)) :=
  ⟨rfl, by decide,
   (read_fallback_chain legacyRow (Except.ok ⟨[], []⟩) rfl).2.2.1 (by decide)⟩

/-- Both builder branches start with the `From`/`To` header lines. -/
theorem buildEnvelope_prefix (sender mailbox subject text html dateStr boundary : Str) :
    ∃ rest, buildEnvelope sender mailbox subject text html dateStr boundary =
      str "From: <" ++ sender ++ str ">" ++ crlf ++
      str "To: <" ++ mailbox ++ str ">" ++ crlf ++ rest := by
  by_cases hh : html = []
  · refine ⟨str "Subject: " ++ subject ++ crlf ++
      str "Date: " ++ dateStr ++ crlf ++
      str "MIME-Version: 1.0" ++ crlf ++
      str "Content-Type: text/plain; charset=\"utf-8\"" ++ crlf ++
      str "Content-Transfer-Encoding: 8bit" ++ crlf ++ crlf ++
      text ++ crlf, ?_⟩
    simp [buildEnvelope, hh, joinCRLF, List.append_assoc]
  · refine ⟨str "Subject: " ++ subject ++ crlf ++
      str "Date: " ++ dateStr ++ crlf ++
      str "MIME-Version: 1.0" ++ crlf ++
      str "Content-Type: multipart/alternative; boundary=\"" ++ boundary ++ str "\"" ++ crlf ++
      crlf ++
      str "--" ++ boundary ++ crlf ++
      str "Content-Type: text/plain; charset=\"utf-8\"" ++ crlf ++
      str "Content-Transfer-Encoding: 8bit" ++ crlf ++ crlf ++
      text ++ crlf ++
      str "--" ++ boundary ++ crlf ++
      str "Content-Type: text/html; charset=\"utf-8\"" ++ crlf ++
      str "Content-Transfer-Encoding: 8bit" ++ crlf ++ crlf ++
      html ++ crlf ++
      str "--" ++ boundary ++ str "--" ++ crlf, ?_⟩
    simp [buildEnvelope, hh, joinCRLF, List.append_assoc]

/-- `String(v || dflt)` yields the default when the field is missing or
falsy. -/
theorem coalesceStr_default (v : Option JVal) (dflt : Str)
    (h : v = none ∨ ∃ j, v = some j ∧ jsTruthy j = false) :
    coalesceStr v dflt = dflt := by
  rcases h with h | ⟨j, hj, ht⟩
  · rw [h]
    rfl
  · rw [hj]
    simp [coalesceStr, ht]

/-- `String(v || dflt)` stringifies a truthy field. -/
theorem coalesceStr_truthy (v : Option JVal) (dflt : Str) (j : JVal)
    (hj : v = some j) (ht : jsTruthy j = true) : coalesceStr v dflt = jsString j := by
  rw [hj]
  simp [coalesceStr, ht]

/-- **C7.**  Each ingestion field is coerced to a string defaulting to
empty when missing or falsy — except `subject`, which defaults to the
placeholder `(无主题)` — and the produced envelope wraps the normalized
sender and recipient addresses in angle brackets in its `From` and `To`
headers. -/
theorem ingest_coercion_and_angle_brackets (d : IngestPayload) (dateStr boundary : Str) :
    ((d.toF = none ∨ ∃ j, d.toF = some j ∧ jsTruthy j = false) →
      (ingestFields d).toF = []) ∧
    (∀ j, d.toF = some j → jsTruthy j = true → (ingestFields d).toF = jsString j) ∧
    ((d.fromF = none ∨ ∃ j, d.fromF = some j ∧ jsTruthy j = false) →
      (ingestFields d).fromF = []) ∧
    (∀ j, d.fromF = some j → jsTruthy j = true → (ingestFields d).fromF = jsString j) ∧
    ((d.text = none ∨ ∃ j, d.text = some j ∧ jsTruthy j = false) →
      (ingestFields d).text = []) ∧
    (∀ j, d.text = some j → jsTruthy j = true → (ingestFields d).text = jsString j) ∧
    ((d.html = none ∨ ∃ j, d.html = some j ∧ jsTruthy j = false) →
      (ingestFields d).html = []) ∧
    (∀ j, d.html = some j → jsTruthy j = true → (ingestFields d).html = jsString j) ∧
    ((d.subject = none ∨ ∃ j, d.subject = some j ∧ jsTruthy j = false) →
      (ingestFields d).subject = str "(无主题)") ∧
    (∀ j, d.subject = some j → jsTruthy j = true → (ingestFields d).subject = jsString j) ∧
    (∃ rest, buildEnvelope (extractEmail (ingestFields d).fromF)
        (extractEmail (ingestFields d).toF) (ingestFields d).subject
        (ingestFields d).text (ingestFields d).html dateStr boundary =
      str "From: <" ++ extractEmail (ingestFields d).fromF ++ str ">" ++ crlf ++
      str "To: <" ++ extractEmail (ingestFields d).toF ++ str ">" ++ crlf ++ rest) :=
  ⟨fun h => coalesceStr_default d.toF [] h,
   fun j hj ht => coalesceStr_truthy d.toF [] j hj ht,
   fun h => coalesceStr_default d.fromF [] h,
   fun j hj ht => coalesceStr_truthy d.fromF [] j hj ht,
   fun h => coalesceStr_default d.text [] h,
   fun j hj ht => coalesceStr_truthy d.text [] j hj ht,
   fun h => coalesceStr_default d.html [] h,
   fun j hj ht => coalesceStr_truthy d.html [] j hj ht,
   fun h => coalesceStr_default d.subject (str "(无主题)") h,
   fun j hj ht => coalesceStr_truthy d.subject (str "(无主题)") j hj ht,
   buildEnvelope_prefix _ _ _ _ _ _ _⟩

/-- A concrete ingestion payload: truthy `to`, missing `from`, falsy
(empty-string) `subject`, truthy `text`, missing `html`. -/
def samplePayload : IngestPayload :=
  { toF := some (JVal.jstr (str "Alice <a@b>")), fromF := none,
    subject := some (JVal.jstr []), text := some (JVal.jstr (str "hi")),
    html := none }

/-- Witness for `ingest_coercion_and_angle_brackets` at a concrete
payload. -/
theorem ingest_coercion_witness :
    (samplePayload.fromF = none ∨
      ∃ j, samplePayload.fromF = some j ∧ jsTruthy j = false) ∧
    (ingestFields samplePayload).fromF = [] ∧
    (ingestFields samplePayload).subject = str "(无主题)" ∧
    (ingestFields samplePayload).toF = jsString (JVal.jstr (str "Alice <a@b>")) ∧
    ∃ rest, buildEnvelope (extractEmail (ingestFields samplePayload).fromF)
        (extractEmail (ingestFields samplePayload).toF)
        (ingestFields samplePayload).subject (ingestFields samplePayload).text
        (ingestFields samplePayload).html (str "D") (str "B") =
      str "From: <" ++ extractEmail (ingestFields samplePayload).fromF ++ str ">" ++ crlf ++
      str "To: <" ++ extractEmail (ingestFields samplePayload).toF ++ str ">" ++ crlf ++
      rest := by
  have h := ingest_coercion_and_angle_brackets samplePayload (str "D") (str "B")
  exact ⟨Or.inl rfl, h.2.2.1 (Or.inl rfl),
    h.2.2.2.2.2.2.2.2.1 (Or.inr ⟨JVal.jstr [], rfl, by decide⟩),
    h.2.1 (JVal.jstr (str "Alice <a@b>")) rfl (by decide),
    h.2.2.2.2.2.2.2.2.2.2⟩

/-- **C9.**  List requests are bounded: the effective LIMIT is the minimum
of the caller-supplied limit (20 when the parameter is absent) and 50, and
a batch request naming more than 50 ids is rejected with a client error —
only the `queried` outcome reaches the datastore. -/
theorem query_limits (p idsParam : Option Str) :
    (p = none → effectiveLimit p = some 20) ∧
    (∀ n : Int, parseIntJS (limitParamStr p) = some n →
      effectiveLimit p = some (min n 50) ∧ min n 50 ≤ 50) ∧
    (50 < (batchIds idsParam).length → batchOutcome idsParam = BatchOutcome.clientError) := by
  refine ⟨?_, ?_, ?_⟩
  · intro hp
    subst hp
    decide
  · intro n hn
    unfold effectiveLimit
    rw [hn]
    exact ⟨rfl, min_le_right n 50⟩
  · intro h
    unfold batchIds at h
    unfold batchOutcome
    by_cases hp : trimWS (idsParam.getD []) = []
    · rw [hp] at h
      exact absurd h (by decide)
    · rw [if_neg hp, if_neg (by
        intro h0
        rw [h0] at h
        exact absurd h (by decide)), if_pos h]

/-- Witness for `query_limits` at concrete parameters: limit `100` is
clamped to 50, and a 51-id batch request is rejected. -/
theorem query_limits_witness :
    parseIntJS (limitParamStr (some (str "100"))) = some 100 ∧
    (effectiveLimit (some (str "100")) = some (min 100 50) ∧ min (100 : Int) 50 ≤ 50) ∧
    50 < (batchIds (some ((List.replicate 50 (str "7,")).foldr (· ++ ·) (str "7")))).length ∧
    batchOutcome (some ((List.replicate 50 (str "7,")).foldr (· ++ ·) (str "7"))) =
      BatchOutcome.clientError :=
  ⟨by decide,
   (query_limits (some (str "100")) none).2.1 100 (by decide),
   by decide,
   (query_limits none (some ((List.replicate 50 (str "7,")).foldr (· ++ ·) (str "7")))).2.2
     (by decide)⟩

/-- **C10.**  A successful single-email detail read leaves the store the
same length, changes no row other than the one with the requested id, and
changes that row only by setting `is_read` to 1. -/
theorem detail_read_frame (store : List MessageRow) (emailId : Int)
    (hfound : store.any (fun r => r.id == emailId) = true) :
    (detailReadStore store emailId).length = store.length ∧
    ∀ (i : Nat) (r : MessageRow), store[i]? = some r →
      (r.id ≠ emailId → (detailReadStore store emailId)[i]? = some r) ∧
      (r.id = emailId → (detailReadStore store emailId)[i]? =
        some { r with is_read := 1 }) := by
  unfold detailReadStore
  rw [if_pos hfound]
  constructor
  · simp [markRead]
  · intro i r hr
    constructor
    · intro hne
      simp [markRead, List.getElem?_map, hr, hne]
    · intro heq
      simp [markRead, List.getElem?_map, hr, heq]

/-- A concrete two-row store. -/
def sampleStore : List MessageRow :=
  [{ id := 1, sender := [], to_addrs := [], subject := [],
     verification_code := none, preview := none, eml_content := none,
     received_at := 0, is_read := 0, content := none, html_content := none },
   { id := 2, sender := [], to_addrs := [], subject := [],
     verification_code := none, preview := none, eml_content := none,
     received_at := 0, is_read := 0, content := none, html_content := none }]

/-- Witness for `detail_read_frame` at a concrete two-row store. -/
theorem detail_read_frame_witness :
    (sampleStore.any (fun r => r.id == (1 : Int)) = true) ∧
    ((detailReadStore sampleStore 1).length = sampleStore.length ∧
     ∀ (i : Nat) (r : MessageRow), sampleStore[i]? = some r →
       (r.id ≠ 1 → (detailReadStore sampleStore 1)[i]? = some r) ∧
       (r.id = 1 → (detailReadStore sampleStore 1)[i]? =
         some { r with is_read := 1 })) :=
  ⟨by decide, detail_read_frame sampleStore 1 (by decide)⟩

/-- Witness for `envelope_single_part_and_crlf` at a concrete input,
discharging the empty-html antecedent of the shape conjunct and the seven
CRLF-discipline antecedents of the line-discipline conjunct. -/
theorem envelope_single_part_and_crlf_witness :
    (buildEnvelope (str "s@x") (str "m@x") (str "Hi") (str "ok") [] (str "D") (str "B") =
        str "From: <" ++ str "s@x" ++ str ">" ++ crlf ++
        str "To: <" ++ str "m@x" ++ str ">" ++ crlf ++
        str "Subject: " ++ str "Hi" ++ crlf ++
        str "Date: " ++ str "D" ++ crlf ++
        str "MIME-Version: 1.0" ++ crlf ++
        str "Content-Type: text/plain; charset=\"utf-8\"" ++ crlf ++
        str "Content-Transfer-Encoding: 8bit" ++ crlf ++
        crlf ++
        str "ok" ++ crlf) ∧
    crlfOk (buildEnvelope (str "s@x") (str "m@x") (str "Hi") (str "ok") [] (str "D") (str "B")) = true ∧
    endsCRLF (buildEnvelope (str "s@x") (str "m@x") (str "Hi") (str "ok") [] (str "D") (str "B")) :=
  ⟨(envelope_single_part_and_crlf (str "s@x") (str "m@x") (str "Hi") (str "ok") []
      (str "D") (str "B")).1 rfl,
   (envelope_single_part_and_crlf (str "s@x") (str "m@x") (str "Hi") (str "ok") []
      (str "D") (str "B")).2 (by decide) (by decide) (by decide) (by decide)
      (by decide) (by decide) (by decide)⟩

end Freemail
